import Mathlib

/-!
Shallow embedding of the `eft_parser` repository
(`src/eft_parser/parse_fits.py` and `src/eft_parser/utils/db_handler.py`).

The Python code parses EVE "fitting" documents in two text dialects into a
`Fit` object.  We model Python strings as Lean `String`, Python `int` as
`Int`, Python exceptions as `Except String`, and the sqlite lookup table of
`db_handler.get_category_info` as a function `String → Option Int`
(`none` models a missing row, in which case `cursor.fetchone()` returns
`None` and the subscript `[0]` raises a `TypeError`).

Lines are delimited by `'\n'`; Python's `str.strip()` whitespace set is
modelled by the six ASCII whitespace characters.
-/

namespace EFT

/-- The characters Python's `str.strip()` removes by default. -/
def pySpace (c : Char) : Bool :=
  c = ' ' ∨ c = '\t' ∨ c = '\n' ∨ c = '\r' ∨ c = '\x0b' ∨ c = '\x0c'

/-- Strip characters satisfying `p` from both ends of a character list
(right end first; the order does not matter). -/
def stripEnds (p : Char → Bool) (l : List Char) : List Char :=
  ((l.reverse.dropWhile p).reverse).dropWhile p

/-- Python `str.strip()` with no argument. -/
def pyStrip (s : String) : String :=
  (stripEnds pySpace s.data).asString

/-- Python `str.strip(chars)`: remove any of the given characters from both
ends. -/
def pyStripChars (chars : String) (s : String) : String :=
  (stripEnds (fun c => c ∈ chars.data) s.data).asString

/-- Python `sub in s` (substring containment) on character lists. -/
def subL (pat : List Char) : List Char → Bool
  | [] => pat.isEmpty
  | c :: cs => pat.isPrefixOf (c :: cs) || subL pat cs

/-- Python `pat in s` on strings. -/
def hasSub (s pat : String) : Bool := subL pat.data s.data

/-- Split at the first occurrence of `pat`: Python `s.split(pat, 1)` when it
returns two pieces (`none` when `pat` does not occur). -/
def splitOnceL (pat : List Char) : List Char → Option (List Char × List Char)
  | [] => if pat = [] then some ([], []) else none
  | c :: cs =>
    if pat.isPrefixOf (c :: cs) then some ([], (c :: cs).drop pat.length)
    else
      match splitOnceL pat cs with
      | some (a, b) => some (c :: a, b)
      | none => none

/-- Split at the last occurrence of `pat`: Python `s.rsplit(pat, 1)` when it
returns two pieces. -/
def rsplitOnceL (pat l : List Char) : Option (List Char × List Char) :=
  match splitOnceL pat.reverse l.reverse with
  | some (a, b) => some (b.reverse, a.reverse)
  | none => none

/-- String wrapper for `splitOnceL`. -/
def splitFirstStr (s pat : String) : Option (String × String) :=
  (splitOnceL pat.data s.data).map fun p => (p.1.asString, p.2.asString)

/-- String wrapper for `rsplitOnceL`. -/
def rsplitStr (s pat : String) : Option (String × String) :=
  (rsplitOnceL pat.data s.data).map fun p => (p.1.asString, p.2.asString)

/-- Python `str.splitlines()` restricted to `'\n'` separators: no trailing
empty line is produced for a trailing newline, and `""` gives `[]`. -/
def splitLinesL : List Char → List (List Char)
  | [] => []
  | c :: cs =>
    if c = '\n' then [] :: splitLinesL cs
    else
      match splitLinesL cs with
      | [] => [[c]]
      | l :: ls => (c :: l) :: ls

/-- `splitlines` on strings. -/
def splitLines (s : String) : List String :=
  (splitLinesL s.data).map List.asString

/-- Python `s.startswith(pat)`. -/
def pyStartsWith (s pat : String) : Bool := pat.data.isPrefixOf s.data

/-- Numeric value of a digit string (most significant digit first). -/
def natOfDigits (ds : List Char) : Nat :=
  ds.foldl (fun a c => 10 * a + (c.toNat - 48)) 0

/-- The all-digits fragment of Python `int()`. -/
def pyIntDigits (ds : List Char) : Except String Nat :=
  if ds ≠ [] ∧ ds.all Char.isDigit then .ok (natOfDigits ds)
  else .error "ValueError: invalid literal for int()"

/-- Python `int(s)` on an already-stripped string: an optional sign followed
by at least one decimal digit. -/
def pyInt (s : String) : Except String Int :=
  match s.data with
  | [] => .error "ValueError: invalid literal for int()"
  | c :: cs =>
    if c = '-' then (pyIntDigits cs).map fun n => -(n : Int)
    else if c = '+' then (pyIntDigits cs).map fun n => (n : Int)
    else (pyIntDigits (c :: cs)).map fun n => (n : Int)

/-- Python `str(i)` for an integer. -/
def pyStrInt (i : Int) : String :=
  if i < 0 then "-" ++ Nat.repr i.natAbs else Nat.repr i.natAbs

/-- Python f-string interpolation of an `Optional[str]`:
`None` prints as the literal text `"None"`. -/
def pyFmtOpt : Option String → String
  | none => "None"
  | some s => s

/-! ## The data model (`Module`, `Rig`, `Subsystem`, `Drone`, `Cargo`, `Fit`)

Python lists are heterogeneous: the parser appends `Module`, `Rig`,
`Subsystem`, `Drone` and `Cargo` objects into the `Fit` sequences with no
type enforcement (e.g. the state-4 branch appends `Cargo` objects to
`fit.drones`).  We therefore model the five dataclasses as one inductive
whose constructor records the Python class of the object. -/

inductive Item where
  | module (name : String) (charge : Option String)
  | rig (name : String)
  | subsystem (name : String)
  | drone (name : String) (quantity : Int)
  | cargo (name : String) (quantity : Int)
deriving DecidableEq, Repr

/-- Attribute access `obj.name`: every dataclass has it. -/
def Item.pyName : Item → String
  | .module n _ => n
  | .rig n => n
  | .subsystem n => n
  | .drone n _ => n
  | .cargo n _ => n

/-- Attribute access `obj.charge`: only `Module` has it; anything else
raises `AttributeError`. -/
def Item.pyCharge : Item → Except String (Option String)
  | .module _ c => .ok c
  | _ => .error "AttributeError: object has no attribute 'charge'"

/-- Attribute access `obj.quantity`: only `Drone` and `Cargo` have it. -/
def Item.pyQuantity : Item → Except String Int
  | .drone _ q => .ok q
  | .cargo _ q => .ok q
  | _ => .error "AttributeError: object has no attribute 'quantity'"

/-- The `Fit` dataclass. -/
structure Fit where
  ship : String
  name : String
  low_slots : List Item
  mid_slots : List Item
  high_slots : List Item
  rigs : List Item
  subsystems : List Item
  service_slots : List Item
  drones : List Item
  fighters : List Item
  cargo : List Item
  is_structure : Bool
deriving DecidableEq, Repr

/-- `Fit(ship=..., name=...)`: all sequences default to empty,
`is_structure` to `False`. -/
def Fit.init (ship name : String) : Fit :=
  { ship := ship, name := name, low_slots := [], mid_slots := [],
    high_slots := [], rigs := [], subsystems := [], service_slots := [],
    drones := [], fighters := [], cargo := [], is_structure := false }

/-- `db_handler.get_category_info`: the sqlite table is abstracted as
`db : String → Option Int`.  On a missing row `cursor.fetchone()` returns
`None` and the subscript `[0]` raises `TypeError`. -/
def get_category_info (db : String → Option Int) (name : String) :
    Except String Int :=
  match db name with
  | some c => .ok c
  | none => .error "TypeError: 'NoneType' object is not subscriptable"

/-! ## The section state machine (`ParserState`) -/

/-- `ParserState`: `__init__` sets `section = 0`, `in_blank_block = False`,
`blank_block_count = 0`.  The `heading` attribute is *not* initialized by
`__init__`; it is only assigned inside `process_line2`, which we model with
`Option String` (`none` = attribute not set, so reading it raises
`AttributeError`). -/
structure ParserState where
  sec : Nat
  in_blank_block : Bool
  blank_block_count : Nat
  heading : Option String
deriving DecidableEq, Repr

/-- `ParserState()`. -/
def ParserState.init : ParserState :=
  { sec := 0, in_blank_block := false, blank_block_count := 0, heading := none }

/-- The cargo-like keywords checked while in section 1. -/
def kwCargo1 (line : String) : Bool :=
  ["Missile", "Torpedo", "Bomb", "Charge", "Ammo"].any fun w => hasSub line w

/-- The extended keyword set checked while in section 5. -/
def kwCargo2 (line : String) : Bool :=
  ["Missile", "Torpedo", "Bomb", "Charge", "Ammo", "Fuel", "Script"].any
    fun w => hasSub line w

/-- `ParserState.process_line`: strips the line, updates the section counter
from blank-line runs, and returns the stripped line.  Mirrors the source:
on a blank line the two threshold tests run in sequence (the second one
reading the already-updated section); on a non-blank line the section is
bumped once if a blank block was open, and then the two cargo-keyword
escapes may jump the section to 6. -/
def ParserState.process_line (st : ParserState) (line : String) :
    ParserState × String :=
  let line := pyStrip line
  if line = "" then
    let c1 := st.blank_block_count + 1
    let p2 := if st.sec < 3 ∧ c1 > 1 then (st.sec + 1, 0) else (st.sec, c1)
    let p3 := if p2.1 = 4 ∧ p2.2 > 2 then (p2.1 + 1, 0) else p2
    ({ sec := p3.1, in_blank_block := true, blank_block_count := p3.2,
       heading := st.heading }, line)
  else
    let t :=
      if st.in_blank_block then (st.sec + 1, false, 0)
      else (st.sec, st.in_blank_block, st.blank_block_count)
    let s2 :=
      if t.1 = 1 ∧ hasSub line " x" ∧ kwCargo1 line then 6
      else if t.1 = 5 ∧ hasSub line " x" ∧ kwCargo2 line then 6
      else t.1
    ({ sec := s2, in_blank_block := t.2.1, blank_block_count := t.2.2,
       heading := st.heading }, line)

/-- `ParserState.process_line2` (the EFT2.0 dialect): blank lines and
heading lines produce no item; a heading line `## X` stores the stripped
heading; any other line is returned as an item if a (truthy) heading is
set.  Reading `self.heading` before any heading line raises
`AttributeError` because `__init__` never sets it. -/
def ParserState.process_line2 (st : ParserState) (line : String) :
    ParserState × Except String (Option String) :=
  let line := pyStrip line
  if line = "" then (st, .ok none)
  else if pyStartsWith line "## " then
    ({ st with heading := some (pyStripChars "## " line) }, .ok none)
  else
    match st.heading with
    | none =>
      (st, .error "AttributeError: 'ParserState' object has no attribute 'heading'")
    | some h => if h = "" then (st, .ok none) else (st, .ok (some line))

/-! ## EFTParser (format A) -/

namespace EFTParser

/-- `EFTParser._parse_module`. -/
def parse_module (line : String) : Item :=
  if hasSub line "," then
    match splitFirstStr line "," with
    | some (n, c) => .module (pyStrip (pyStrip n)) (some (pyStrip (pyStrip c)))
    | none => .module (pyStrip line) none
  else .module (pyStrip line) none

/-- `EFTParser._parse_rig`. -/
def parse_rig (line : String) : Item := .rig (pyStrip line)

/-- `EFTParser._parse_subsystem`. -/
def parse_subsystem (line : String) : Item := .subsystem (pyStrip line)

/-- `EFTParser._parse_drone`: split on the last `" x"`; `int()` on the
count can raise `ValueError`. -/
def parse_drone (line : String) : Except String Item :=
  if hasSub line " x" then
    match rsplitStr line " x" with
    | some (n, q) =>
      match pyInt (pyStrip q) with
      | .ok v => .ok (.drone (pyStrip n) v)
      | .error e => .error e
    | none => .error "unreachable"
  else .ok (.drone (pyStrip line) 1)

/-- `EFTParser._parse_cargo`. -/
def parse_cargo (line : String) : Except String Item :=
  if hasSub line " x" then
    match rsplitStr line " x" with
    | some (n, q) =>
      match pyInt (pyStrip q) with
      | .ok v => .ok (.cargo (pyStrip n) v)
      | .error e => .error e
    | none => .error "unreachable"
  else .ok (.cargo (pyStrip line) 1)

/-- The common tail of the state-4 branch: append to `service_slots` when
the fit is a structure, then route by category code (32 → subsystems,
18 → drones, otherwise cargo). -/
def route4 (fit : Fit) (itm : Item) (cat : Int) : Fit :=
  let fit :=
    if fit.is_structure then
      { fit with service_slots := fit.service_slots ++ [itm] }
    else fit
  if cat = 32 then { fit with subsystems := fit.subsystems ++ [itm] }
  else if cat = 18 then { fit with drones := fit.drones ++ [itm] }
  else { fit with cargo := fit.cargo ++ [itm] }

/-- The per-line dispatch of `EFTParser.parse` on a non-blank item, by the
current section. -/
def handle_item (db : String → Option Int) (sec : Nat) (fit : Fit)
    (item : String) : Except String Fit :=
  if sec = 0 then
    .ok { fit with low_slots := fit.low_slots ++ [parse_module item] }
  else if sec = 1 then
    .ok { fit with mid_slots := fit.mid_slots ++ [parse_module item] }
  else if sec = 2 then
    .ok { fit with high_slots := fit.high_slots ++ [parse_module item] }
  else if sec = 3 then
    .ok { fit with rigs := fit.rigs ++ [parse_rig item] }
  else if sec = 4 then
    if hasSub item " x" then
      match parse_cargo item with
      | .error e => .error e
      | .ok itm =>
        match get_category_info db itm.pyName with
        | .error e => .error e
        | .ok cat =>
          let fit :=
            if cat = 8 then { fit with cargo := fit.cargo ++ [itm] } else fit
          .ok (route4 fit itm cat)
    else
      let itm := parse_module item
      match get_category_info db itm.pyName with
      | .error e => .error e
      | .ok cat => .ok (route4 fit itm cat)
  else if sec = 5 then
    if fit.drones = [] then
      match parse_drone item with
      | .error e => .error e
      | .ok itm => .ok { fit with drones := fit.drones ++ [itm] }
    else
      match parse_cargo item with
      | .error e => .error e
      | .ok itm => .ok { fit with cargo := fit.cargo ++ [itm] }
  else if sec = 6 then
    match parse_cargo item with
    | .error e => .error e
    | .ok itm => .ok { fit with cargo := fit.cargo ++ [itm] }
  else if sec = 7 then
    match parse_drone item with
    | .error e => .error e
    | .ok itm => .ok { fit with fighters := fit.fighters ++ [itm] }
  else .ok fit

/-- The `for line in lines[1:]` loop of `EFTParser.parse`. -/
def runLines (db : String → Option Int) :
    ParserState → Fit → List String → Except String (ParserState × Fit)
  | st, fit, [] => .ok (st, fit)
  | st, fit, l :: ls =>
    let p := st.process_line l
    if p.2 = "" then runLines db p.1 fit ls
    else
      match handle_item db p.1.sec fit p.2 with
      | .error e => .error e
      | .ok fit2 => runLines db p.1 fit2 ls

/-- The header phase of `EFTParser.parse`: require a leading `[` on the
first line of the stripped text, strip `[]`, split on the first comma into
ship and fit name (raising `ValueError` if the unpacking fails). -/
def header (text : String) : Except String (String × String) :=
  match splitLines (pyStrip text) with
  | [] => .error "ValueError: Invalid EFT format"
  | l0 :: _ =>
    if pyStartsWith l0 "[" then
      match splitFirstStr (pyStripChars "[]" l0) "," with
      | some (a, b) => .ok (pyStrip a, pyStrip b)
      | none => .error "ValueError: not enough values to unpack (expected 2, got 1)"
    else .error "ValueError: Invalid EFT format"

/-- `EFTParser.parse`. -/
def parse (db : String → Option Int) (text : String) : Except String Fit :=
  match header text with
  | .error e => .error e
  | .ok (ship, name) =>
    match get_category_info db ship with
    | .error e => .error e
    | .ok cat =>
      let fit := { Fit.init ship name with is_structure := cat == 65 }
      match splitLines (pyStrip text) with
      | [] => .error "ValueError: Invalid EFT format"
      | _ :: rest =>
        match runLines db ParserState.init fit rest with
        | .error e => .error e
        | .ok p => .ok p.2

end EFTParser

/-! ## EFT2Parser (format B) -/

namespace EFT2Parser

/-- `EFT2Parser._parse_module`. -/
def parse_module (line : String) : Item :=
  if hasSub line "," then
    match splitFirstStr line "," with
    | some (n, c) => .module (pyStrip (pyStrip n)) (some (pyStrip (pyStrip c)))
    | none => .module (pyStrip line) none
  else .module (pyStrip line) none

/-- `EFT2Parser._parse_rig`. -/
def parse_rig (line : String) : Item := .rig (pyStrip line)

/-- `EFT2Parser._parse_subsystem`. -/
def parse_subsystem (line : String) : Item := .subsystem (pyStrip line)

/-- `EFT2Parser._parse_drone`: the separator is `" ,"`. -/
def parse_drone (line : String) : Except String Item :=
  if hasSub line " ," then
    match rsplitStr line " ," with
    | some (n, q) =>
      match pyInt (pyStrip q) with
      | .ok v => .ok (.drone (pyStrip n) v)
      | .error e => .error e
    | none => .error "unreachable"
  else .ok (.drone (pyStrip line) 1)

/-- `EFT2Parser._parse_cargo`. -/
def parse_cargo (line : String) : Except String Item :=
  if hasSub line " ," then
    match rsplitStr line " ," with
    | some (n, q) =>
      match pyInt (pyStrip q) with
      | .ok v => .ok (.cargo (pyStrip n) v)
      | .error e => .error e
    | none => .error "unreachable"
  else .ok (.cargo (pyStrip line) 1)

/-- The heading dispatch of `EFT2Parser.parse`. -/
def handle_item (h : Option String) (fit : Fit) (item : String) :
    Except String Fit :=
  if h = some "Low Slots" then
    .ok { fit with low_slots := fit.low_slots ++ [parse_module item] }
  else if h = some "Mid Slots" then
    .ok { fit with mid_slots := fit.mid_slots ++ [parse_module item] }
  else if h = some "High Slots" then
    .ok { fit with high_slots := fit.high_slots ++ [parse_module item] }
  else if h = some "Rigs" then
    .ok { fit with rigs := fit.rigs ++ [parse_rig item] }
  else if h = some "Subsystems" then
    .ok { fit with subsystems := fit.subsystems ++ [parse_subsystem item] }
  else if h = some "Drones" then
    match parse_drone item with
    | .error e => .error e
    | .ok itm => .ok { fit with drones := fit.drones ++ [itm] }
  else if h = some "Cargo" then
    match parse_cargo item with
    | .error e => .error e
    | .ok itm => .ok { fit with cargo := fit.cargo ++ [itm] }
  else .ok fit

/-- The `for line in lines[1:]` loop of `EFT2Parser.parse`. -/
def runLines (st : ParserState) (fit : Fit) :
    List String → Except String (ParserState × Fit)
  | [] => .ok (st, fit)
  | l :: ls =>
    match st.process_line2 l with
    | (_, .error e) => .error e
    | (st2, .ok none) => runLines st2 fit ls
    | (st2, .ok (some item)) =>
      match handle_item st2.heading fit item with
      | .error e => .error e
      | .ok fit2 => runLines st2 fit2 ls

/-- `EFT2Parser.parse`. -/
def parse (text : String) : Except String Fit :=
  match splitLines (pyStrip text) with
  | [] => .error "ValueError: Invalid EFT2.0 format"
  | l0 :: rest =>
    if pyStartsWith l0 "#" then
      match splitFirstStr (pyStripChars "# " l0) "," with
      | some (ship, name) =>
        match runLines ParserState.init (Fit.init ship name) rest with
        | .error e => .error e
        | .ok p => .ok p.2
      | none => .error "ValueError: not enough values to unpack (expected 2, got 1)"
    else .error "ValueError: Invalid EFT2.0 format"

end EFT2Parser

/-! ## `Fit.to_eft` (the format-A serializer) -/

/-- One `name,charge` line: the f-string prints a missing charge as the
literal text `None`. -/
def modLine (e : Item) : Except String String :=
  match e.pyCharge with
  | .error err => .error err
  | .ok c => .ok (e.pyName ++ "," ++ pyFmtOpt c ++ "\n")

/-- One bare `name` line. -/
def nameLine (e : Item) : Except String String := .ok (e.pyName ++ "\n")

/-- One `name xquantity` line. -/
def qtyLine (e : Item) : Except String String :=
  match e.pyQuantity with
  | .error err => .error err
  | .ok q => .ok (e.pyName ++ " x" ++ pyStrInt q ++ "\n")

/-- `Fit.to_eft`: header, then each section's lines followed by one blank
line (none after the fighters).  Attribute access on a mis-typed entry
raises, hence the `Except`. -/
def Fit.to_eft (f : Fit) : Except String String := do
  let low ← f.low_slots.mapM modLine
  let mid ← f.mid_slots.mapM modLine
  let high ← f.high_slots.mapM modLine
  let rigs ← f.rigs.mapM nameLine
  let subsOrServ ←
    (if f.is_structure then f.service_slots else f.subsystems).mapM nameLine
  let drones ← f.drones.mapM qtyLine
  let cargo ← f.cargo.mapM qtyLine
  let fighters ← f.fighters.mapM qtyLine
  pure ("[" ++ f.ship ++ "," ++ f.name ++ "]\n" ++
    String.join low ++ "\n" ++ String.join mid ++ "\n" ++
    String.join high ++ "\n" ++ String.join rigs ++ "\n" ++
    String.join subsOrServ ++ "\n" ++ String.join drones ++ "\n" ++
    String.join cargo ++ "\n" ++ String.join fighters)

/-! ## Observers used to state properties -/

/-- The item value the state-4 branch constructs from a line (cargo-shaped
when the line contains `" x"`, module-shaped otherwise); empty when the
cargo parse fails (in which case the parser raises anyway). -/
def item4 (item : String) : List Item :=
  if hasSub item " x" then
    match EFTParser.parse_cargo item with
    | .ok e => [e]
    | .error _ => []
  else [EFTParser.parse_module item]

/-- All items dispatched while the state machine sits in section 4, in
order, starting from a given state. -/
def collect4 : ParserState → List String → List Item
  | _, [] => []
  | st, l :: ls =>
    let p := st.process_line l
    (if p.2 ≠ "" ∧ p.1.sec = 4 then item4 p.2 else []) ++ collect4 p.1 ls

/-- The section-4 items of a whole format-A document. -/
def sec4Items (text : String) : List Item :=
  match splitLines (pyStrip text) with
  | [] => []
  | _ :: rest => collect4 ParserState.init rest

/-- The first line of the stripped input (the header line both parsers
inspect). -/
def firstLine (text : String) : Option String :=
  (splitLines (pyStrip text)).head?

/-! ## Concrete inputs used by the claim theorems -/

/-- A classification table that knows only the hull `A` (category 6,
not a structure). -/
def dbA : String → Option Int := fun n => if n = "A" then some 6 else none

/-- The classification table of the §8 example: `Venture` is a
non-structure hull, `Mining Drone I` is a drone (category 18). -/
def dbC4 : String → Option Int := fun n =>
  if n = "Venture" then some 6
  else if n = "Mining Drone I" then some 18 else none

/-- The §8 example document. -/
def docC4 : String :=
  "[Venture, Venture - Mining]\nMining Laser Upgrade II\nMining Laser Upgrade II\n\n\n\nMining Laser II\nMining Laser II\n\nSmall Core Defense Field Extender I\nSmall Core Defense Field Extender I\n\n\n\nMining Drone I x5\n"

/-- The parse of the §8 example document. -/
def fitC4 : Fit :=
  { Fit.init "Venture" "Venture - Mining" with
    low_slots := [.module "Mining Laser Upgrade II" none,
                  .module "Mining Laser Upgrade II" none],
    high_slots := [.module "Mining Laser II" none, .module "Mining Laser II" none],
    rigs := [.rig "Small Core Defense Field Extender I",
             .rig "Small Core Defense Field Extender I"],
    drones := [.cargo "Mining Drone I" 5] }

/-- A one-module fit whose module has no charge. -/
def fitC1a : Fit := { Fit.init "A" "B" with low_slots := [.module "P" none] }

/-- The same fit after a render/parse round trip: the charge has become the
literal string `"None"`. -/
def fitC1b : Fit :=
  { Fit.init "A" "B" with low_slots := [.module "P" (some "None")] }

/-- Parse of `"[A, B]\nP\n\nQ"`: the single blank line pushed `Q` into the
mid slots. -/
def fitC3 : Fit :=
  { Fit.init "A" "B" with
    low_slots := [.module "P" none],
    mid_slots := [.module "Q" none] }

/-- Parse of `"[A, B]\nX\n\nMissile x0"`: a cargo record with quantity 0. -/
def fitC7 : Fit :=
  { Fit.init "A" "B" with
    low_slots := [.module "X" none],
    cargo := [.cargo "Missile" 0] }

/-- A classification table with a structure hull `K` (category 65) and an
item `Widget` of an ordinary category. -/
def dbK : String → Option Int := fun n =>
  if n = "K" then some 65 else if n = "Widget" then some 7 else none

/-- A structure document whose single ambiguous-section item is `Widget`. -/
def docK : String := "[K, f]\nL\n\nM\n\nH\n\nR\n\nWidget"

/-! ## Claim theorems (concrete evaluations) -/

/-- C4: parsing the §8 example document (header `[Venture, Venture - Mining]`,
two low-slot lines, a three-blank run, two `Mining Laser II` lines, one
blank, two rig lines, a three-blank run, `Mining Drone I x5`), with the
lookup reporting category 18 for `Mining Drone I` and the non-structure
category 6 for `Venture`, yields ship `Venture`, name `Venture - Mining`,
2 low slots, 0 mid slots, 2 high slots, 2 rigs, and 1 drone entry with
quantity 5. -/
theorem c4_example :
    EFTParser.parse dbC4 docC4 = .ok fitC4 ∧
    fitC4.ship = "Venture" ∧ fitC4.name = "Venture - Mining" ∧
    fitC4.low_slots.length = 2 ∧ fitC4.mid_slots.length = 0 ∧
    fitC4.high_slots.length = 2 ∧ fitC4.rigs.length = 2 ∧
    fitC4.drones.length = 1 ∧ fitC4.drones.map Item.pyQuantity = [.ok 5] :=
  ⟨rfl, rfl, rfl, rfl, rfl, rfl, rfl, rfl, rfl⟩

/-- C1 (code bug): the round trip `parse ∘ to_eft ∘ parse` does not preserve
the `(name, charge)` tuples.  `to_eft` renders a missing charge through an
f-string, producing the line `P,None`, so re-parsing turns `charge = None`
into the literal string `"None"`. -/
theorem c1_roundtrip_failure :
    EFTParser.parse dbA "[A, B]\nP" = .ok fitC1a ∧
    fitC1a.to_eft = .ok "[A,B]\nP,None\n\n\n\n\n\n\n\n" ∧
    EFTParser.parse dbA "[A,B]\nP,None\n\n\n\n\n\n\n\n" = .ok fitC1b ∧
    fitC1a.low_slots = [.module "P" none] ∧
    fitC1b.low_slots = [.module "P" (some "None")] ∧
    Item.module "P" none ≠ Item.module "P" (some "None") :=
  ⟨rfl, rfl, rfl, rfl, rfl, by decide⟩

/-- C2 (code bug): a state-4 item whose name the lookup does not know
(`dbA "Widget" = none`) makes `EFTParser.parse` raise the `TypeError` from
`get_category_info` (`fetchone()` returns `None`, `[0]` subscripts it),
instead of routing the item to cargo. -/
theorem c2_lookup_miss_raises :
    dbA "Widget" = none ∧
    EFTParser.parse dbA "[A, B]\nL\n\nM\n\nH\n\nR\n\nWidget" =
      .error "TypeError: 'NoneType' object is not subscriptable" :=
  ⟨rfl, rfl⟩

/-- C3 counterexample: in section 0 a region of exactly one blank line does
end the section — the first non-blank line after the blank is attributed to
the *next* section (`Q` lands in `mid_slots`, not `low_slots`). -/
theorem c3_counterexample :
    EFTParser.parse dbA "[A, B]\nP\n\nQ" = .ok fitC3 ∧
    fitC3.low_slots = [.module "P" none] ∧
    fitC3.mid_slots = [.module "Q" none] :=
  ⟨rfl, rfl, rfl⟩

/-- C5 counterexample: the input `" # A,B"` does not begin with the
format-B marker `#`, yet `EFT2Parser.parse` strips the text first and
returns a `Fit` instead of raising. -/
theorem c5_counterexample :
    pyStartsWith " # A,B" "#" = false ∧
    EFT2Parser.parse " # A,B" = .ok (Fit.init "A" "B") :=
  ⟨rfl, rfl⟩

/-- C7 counterexample: the line `Missile x0` is routed to cargo by the
section-1 keyword escape and produces a record with quantity 0, which is
not a positive integer. -/
theorem c7_counterexample :
    EFTParser.parse dbA "[A, B]\nX\n\nMissile x0" = .ok fitC7 ∧
    fitC7.cargo.map Item.pyQuantity = [.ok 0] :=
  ⟨rfl, rfl⟩

/-- C8 counterexample: a drone line whose item name itself contains the
dialect's delimiter but which carries no explicit count is not parsed with
the full name intact — the split still happens and `int()` raises. -/
theorem c8_counterexample :
    EFT2Parser.parse "# A,B\n## Drones\nRogue ,comma Drone" =
      .error "ValueError: invalid literal for int()" ∧
    EFTParser.parse_drone "Small x-ray Unit" =
      .error "ValueError: invalid literal for int()" :=
  ⟨rfl, rfl⟩

/-- C9 (code bug): a non-blank, non-heading line before the first heading
makes `EFT2Parser.parse` raise `AttributeError`, because
`ParserState.__init__` never initializes `self.heading`, instead of
producing no item. -/
theorem c9_preheading_raises :
    EFT2Parser.parse "# A,B\nstray" =
      .error "AttributeError: 'ParserState' object has no attribute 'heading'" :=
  rfl

/-! ## Amended claim theorems -/

/-- C7 amended: a drone/cargo line with no explicit quantity token always
yields quantity 1 (never zero and never an error) in both dialects; with an
explicit token, the parsed integer is used verbatim (which can be 0). -/
theorem c7_amended (line : String) :
    (hasSub line " x" = false →
      EFTParser.parse_drone line = .ok (.drone (pyStrip line) 1) ∧
      EFTParser.parse_cargo line = .ok (.cargo (pyStrip line) 1)) ∧
    (hasSub line " ," = false →
      EFT2Parser.parse_drone line = .ok (.drone (pyStrip line) 1) ∧
      EFT2Parser.parse_cargo line = .ok (.cargo (pyStrip line) 1)) := by
  constructor <;> intro h <;>
    simp [EFTParser.parse_drone, EFTParser.parse_cargo,
      EFT2Parser.parse_drone, EFT2Parser.parse_cargo, h]

/-- Witness for `c7_amended` at the line `Hobgoblin II`. -/
theorem c7_witness :
    hasSub "Hobgoblin II" " x" = false ∧
    EFTParser.parse_drone "Hobgoblin II" =
      .ok (.drone (pyStrip "Hobgoblin II") 1) :=
  ⟨by decide, ((c7_amended "Hobgoblin II").1 (by decide)).1⟩

/-- C3 amended: in a state with index < 3 and no blanks accumulated, a
single blank line does not change the section when it is read; but the
first non-blank line after that blank advances the section by one, so item
lines after a single blank are attributed to the *next* section. -/
theorem c3_amended (st : ParserState) (line : String)
    (h3 : st.sec < 3) (hc : st.blank_block_count = 0)
    (hnb : pyStrip line ≠ "") (hx : hasSub (pyStrip line) " x" = false) :
    (st.process_line "").1.sec = st.sec ∧
    ((st.process_line "").1.process_line line).1.sec = st.sec + 1 := by
  have h0 : pyStrip "" = "" := rfl
  have hblank : (st.process_line "").1 =
      { sec := st.sec, in_blank_block := true, blank_block_count := 1,
        heading := st.heading } := by
    simp [ParserState.process_line, h0, hc]
  refine ⟨by rw [hblank], ?_⟩
  rw [hblank]
  simp [ParserState.process_line, hnb, hx]

/-- Witness for `c3_amended` in the initial state with the line `P`. -/
theorem c3_witness :
    (ParserState.init.process_line "").1.sec = ParserState.init.sec ∧
    ((ParserState.init.process_line "").1.process_line "P").1.sec =
      ParserState.init.sec + 1 :=
  c3_amended ParserState.init "P" (by decide) rfl (by decide) (by decide)

/-! ## Helper lemmas about the state machine and the parse loop -/

/-- `process_line` never moves the section backwards. -/
theorem process_line_sec_mono (st : ParserState) (l : String) :
    st.sec ≤ (st.process_line l).1.sec := by
  simp only [ParserState.process_line]
  by_cases hb : pyStrip l = ""
  · rw [if_pos hb]
    dsimp only
    split_ifs <;> simp <;> omega
  · rw [if_neg hb]
    dsimp only
    split_ifs with h1 h2 h3 h4 h5 h6 <;> simp_all <;> omega

/-- In sections 5 and beyond, a dispatched item can grow `drones` only when
it was empty, so its length stays below `max` of the old length and 1. -/
theorem handle_item_drones_len (db : String → Option Int) (sec : Nat)
    (fit : Fit) (item : String) (fit2 : Fit) (h5 : 5 ≤ sec)
    (h : EFTParser.handle_item db sec fit item = .ok fit2) :
    fit2.drones.length ≤ max fit.drones.length 1 := by
  unfold EFTParser.handle_item at h
  rw [if_neg (by omega), if_neg (by omega), if_neg (by omega),
    if_neg (by omega), if_neg (by omega)] at h
  by_cases h6 : sec = 5
  · rw [if_pos h6] at h
    by_cases hd : fit.drones = []
    · rw [if_pos hd] at h
      cases hp : EFTParser.parse_drone item with
      | error e => rw [hp] at h; cases h
      | ok itm =>
        rw [hp] at h
        cases h
        simp [hd]
    · rw [if_neg hd] at h
      cases hp : EFTParser.parse_cargo item with
      | error e => rw [hp] at h; cases h
      | ok itm =>
        rw [hp] at h
        cases h
        simp
  · rw [if_neg h6] at h
    by_cases h7 : sec = 6
    · rw [if_pos h7] at h
      cases hp : EFTParser.parse_cargo item with
      | error e => rw [hp] at h; cases h
      | ok itm => rw [hp] at h; cases h; simp
    · rw [if_neg h7] at h
      by_cases h8 : sec = 7
      · rw [if_pos h8] at h
        cases hp : EFTParser.parse_drone item with
        | error e => rw [hp] at h; cases h
        | ok itm => rw [hp] at h; cases h; simp
      · rw [if_neg h8] at h
        cases h
        simp

/-- Over any run that starts at section 5 or later, the `drones` sequence
can gain at most one entry (and only when it started empty). -/
theorem runLines_drones_len (db : String → Option Int) :
    ∀ (ls : List String) (st : ParserState) (fit : Fit) (st' : ParserState)
      (fit' : Fit), 5 ≤ st.sec →
      EFTParser.runLines db st fit ls = .ok (st', fit') →
      fit'.drones.length ≤ max fit.drones.length 1 := by
  intro ls
  induction ls with
  | nil =>
    intro st fit st' fit' h5 h
    simp only [EFTParser.runLines] at h
    cases h
    exact Nat.le_max_left _ _
  | cons l ls ih =>
    intro st fit st' fit' h5 h
    simp only [EFTParser.runLines] at h
    have hm : 5 ≤ (st.process_line l).1.sec :=
      le_trans h5 (process_line_sec_mono st l)
    by_cases hb : (st.process_line l).2 = ""
    · rw [if_pos hb] at h
      exact ih (st.process_line l).1 fit st' fit' hm h
    · rw [if_neg hb] at h
      cases hh : EFTParser.handle_item db (st.process_line l).1.sec fit
          (st.process_line l).2 with
      | error e => rw [hh] at h; cases h
      | ok fit2 =>
        rw [hh] at h
        have h1 := handle_item_drones_len db _ fit _ fit2 hm hh
        have h2 := ih (st.process_line l).1 fit2 st' fit' hm h
        exact h2.trans (max_le h1 (Nat.le_max_right _ _))

/-- C10: starting in section 5, a successful run appends at most one entry
to `drones`; moreover the section-5 dispatch appends the cargo-shaped parse
to `cargo` (leaving `drones` unchanged) whenever `drones` is nonempty, and
appends the drone-shaped parse to `drones` only when it is empty. -/
theorem c10_section5 (db : String → Option Int) (st : ParserState)
    (fit : Fit) (ls : List String) (st' : ParserState) (fit' : Fit)
    (h5 : st.sec = 5)
    (h : EFTParser.runLines db st fit ls = .ok (st', fit')) :
    fit'.drones.length ≤ max fit.drones.length 1 ∧
    (∀ (g : Fit) (item : String), g.drones ≠ [] →
      EFTParser.handle_item db 5 g item =
        match EFTParser.parse_cargo item with
        | .ok e => .ok { g with cargo := g.cargo ++ [e] }
        | .error e => .error e) ∧
    (∀ (g : Fit) (item : String), g.drones = [] →
      EFTParser.handle_item db 5 g item =
        match EFTParser.parse_drone item with
        | .ok e => .ok { g with drones := g.drones ++ [e] }
        | .error e => .error e) := by
  refine ⟨runLines_drones_len db ls st fit st' fit' (by omega) h, ?_, ?_⟩
  · intro g item hg
    unfold EFTParser.handle_item
    rw [if_neg (by omega), if_neg (by omega), if_neg (by omega),
      if_neg (by omega), if_neg (by omega), if_pos rfl, if_neg hg]
    cases EFTParser.parse_cargo item <;> rfl
  · intro g item hg
    unfold EFTParser.handle_item
    rw [if_neg (by omega), if_neg (by omega), if_neg (by omega),
      if_neg (by omega), if_neg (by omega), if_pos rfl, if_pos hg]
    cases EFTParser.parse_drone item <;> rfl

/-- A section-5 state with an open drone slot and one following cargo-bound
line.  Used by the witness of `c10_section5`. -/
theorem c10_witness :
    ∃ p, EFTParser.runLines dbA
        { sec := 5, in_blank_block := false, blank_block_count := 0,
          heading := none }
        { Fit.init "A" "B" with drones := [.drone "Hob" 1] }
        ["Acolyte I x2"] = .ok p ∧
      p.2.drones.length ≤
        max ({ Fit.init "A" "B" with drones := [.drone "Hob" 1] } :
          Fit).drones.length 1 := by
  refine ⟨(⟨5, false, 0, none⟩,
    { Fit.init "A" "B" with
      drones := [.drone "Hob" 1],
      cargo := [.cargo "Acolyte I" 2] }), rfl, ?_⟩
  exact (c10_section5 dbA ⟨5, false, 0, none⟩
    { Fit.init "A" "B" with drones := [.drone "Hob" 1] }
    ["Acolyte I x2"] ⟨5, false, 0, none⟩
    { Fit.init "A" "B" with
      drones := [.drone "Hob" 1],
      cargo := [.cargo "Acolyte I" 2] }
    rfl rfl).1

/-- `route4` appends the item to `service_slots` exactly when the fit is a
structure, and never changes the flag. -/
theorem route4_service (fit : Fit) (itm : Item) (cat : Int) :
    (EFTParser.route4 fit itm cat).service_slots =
      fit.service_slots ++ (if fit.is_structure then [itm] else []) ∧
    (EFTParser.route4 fit itm cat).is_structure = fit.is_structure := by
  unfold EFTParser.route4
  by_cases hs : fit.is_structure <;> simp [hs] <;> split_ifs <;> simp

/-- A single dispatched item extends `service_slots` by its state-4 item
exactly when the fit is a structure and the section is 4; the flag is
never changed. -/
theorem handle_item_service (db : String → Option Int) (sec : Nat)
    (fit : Fit) (item : String) (fit2 : Fit)
    (h : EFTParser.handle_item db sec fit item = .ok fit2) :
    fit2.is_structure = fit.is_structure ∧
    fit2.service_slots = fit.service_slots ++
      (if fit.is_structure ∧ sec = 4 then item4 item else []) := by
  unfold EFTParser.handle_item at h
  by_cases h0 : sec = 0
  · rw [if_pos h0] at h; cases h; simp [h0]
  · rw [if_neg h0] at h
    by_cases h1 : sec = 1
    · rw [if_pos h1] at h; cases h; simp [h1]
    · rw [if_neg h1] at h
      by_cases h2 : sec = 2
      · rw [if_pos h2] at h; cases h; simp [h2]
      · rw [if_neg h2] at h
        by_cases h3 : sec = 3
        · rw [if_pos h3] at h; cases h; simp [h3]
        · rw [if_neg h3] at h
          by_cases h4 : sec = 4
          · rw [if_pos h4] at h
            subst h4
            by_cases hx : hasSub item " x"
            · rw [if_pos hx] at h
              cases hc : EFTParser.parse_cargo item with
              | error e => rw [hc] at h; cases h
              | ok itm =>
                rw [hc] at h
                dsimp only at h
                cases hcat : get_category_info db itm.pyName with
                | error e => rw [hcat] at h; cases h
                | ok cat =>
                  rw [hcat] at h
                  cases h
                  have h8 := route4_service
                    (if cat = 8 then
                      { fit with cargo := fit.cargo ++ [itm] } else fit) itm cat
                  constructor
                  · rw [h8.2]; split_ifs <;> rfl
                  · rw [h8.1]
                    have hsvc : (if cat = 8 then
                        { fit with cargo := fit.cargo ++ [itm] }
                        else fit).service_slots = fit.service_slots := by
                      split_ifs <;> rfl
                    have hstr : (if cat = 8 then
                        { fit with cargo := fit.cargo ++ [itm] }
                        else fit).is_structure = fit.is_structure := by
                      split_ifs <;> rfl
                    rw [hsvc, hstr]
                    have hi4 : item4 item = [itm] := by
                      unfold item4; rw [if_pos hx, hc]
                    rw [hi4]
                    by_cases hs : fit.is_structure <;> simp [hs]
            · rw [if_neg hx] at h
              dsimp only at h
              cases hcat : get_category_info db
                  (EFTParser.parse_module item).pyName with
              | error e => rw [hcat] at h; cases h
              | ok cat =>
                rw [hcat] at h
                cases h
                have h8 := route4_service fit (EFTParser.parse_module item) cat
                refine ⟨h8.2, ?_⟩
                rw [h8.1]
                have hi4 : item4 item = [EFTParser.parse_module item] := by
                  unfold item4; rw [if_neg hx]
                rw [hi4]
                by_cases hs : fit.is_structure <;> simp [hs]
          · rw [if_neg h4] at h
            have hnone : (if fit.is_structure ∧ sec = 4 then item4 item
                else []) = [] := by
              rw [if_neg]; rintro ⟨-, hh⟩; exact h4 hh
            rw [hnone]
            by_cases h5 : sec = 5
            · rw [if_pos h5] at h
              by_cases hd : fit.drones = []
              · rw [if_pos hd] at h
                cases hp : EFTParser.parse_drone item with
                | error e => rw [hp] at h; cases h
                | ok itm => rw [hp] at h; cases h; simp
              · rw [if_neg hd] at h
                cases hp : EFTParser.parse_cargo item with
                | error e => rw [hp] at h; cases h
                | ok itm => rw [hp] at h; cases h; simp
            · rw [if_neg h5] at h
              by_cases h6 : sec = 6
              · rw [if_pos h6] at h
                cases hp : EFTParser.parse_cargo item with
                | error e => rw [hp] at h; cases h
                | ok itm => rw [hp] at h; cases h; simp
              · rw [if_neg h6] at h
                by_cases h7 : sec = 7
                · rw [if_pos h7] at h
                  cases hp : EFTParser.parse_drone item with
                  | error e => rw [hp] at h; cases h
                  | ok itm => rw [hp] at h; cases h; simp
                · rw [if_neg h7] at h; cases h; simp

/-- Over a whole run, `service_slots` is extended by exactly the state-4
items when the fit is a structure, and untouched otherwise; the flag never
changes. -/
theorem runLines_service (db : String → Option Int) :
    ∀ (ls : List String) (st : ParserState) (fit : Fit) (st' : ParserState)
      (fit' : Fit),
      EFTParser.runLines db st fit ls = .ok (st', fit') →
      fit'.is_structure = fit.is_structure ∧
      fit'.service_slots = fit.service_slots ++
        (if fit.is_structure then collect4 st ls else []) := by
  intro ls
  induction ls with
  | nil =>
    intro st fit st' fit' h
    simp only [EFTParser.runLines] at h
    cases h
    constructor
    · rfl
    · simp [collect4]
  | cons l ls ih =>
    intro st fit st' fit' h
    simp only [EFTParser.runLines] at h
    by_cases hb : (st.process_line l).2 = ""
    · rw [if_pos hb] at h
      have hr := ih (st.process_line l).1 fit st' fit' h
      refine ⟨hr.1, ?_⟩
      rw [hr.2]
      have hc : collect4 st (l :: ls) = collect4 (st.process_line l).1 ls := by
        simp only [collect4]
        rw [if_neg]
        · simp
        · rintro ⟨hne, -⟩; exact hne hb
      rw [hc]
    · rw [if_neg hb] at h
      cases hh : EFTParser.handle_item db (st.process_line l).1.sec fit
          (st.process_line l).2 with
      | error e => rw [hh] at h; cases h
      | ok fit2 =>
        rw [hh] at h
        have hstep := handle_item_service db _ fit _ fit2 hh
        have hr := ih (st.process_line l).1 fit2 st' fit' h
        refine ⟨hr.1.trans hstep.1, ?_⟩
        rw [hr.2, hstep.2, hstep.1]
        simp only [collect4]
        by_cases hs : fit.is_structure = true
        · rw [if_pos hs, if_pos hs]
          by_cases h4 : (st.process_line l).1.sec = 4
          · rw [if_pos (⟨hs, h4⟩ :
                fit.is_structure = true ∧ (st.process_line l).1.sec = 4),
              if_pos (⟨hb, h4⟩ :
                (st.process_line l).2 ≠ "" ∧ (st.process_line l).1.sec = 4),
              List.append_assoc]
          · have e1 : ¬(fit.is_structure = true ∧
                (st.process_line l).1.sec = 4) := fun hx => h4 hx.2
            have e2 : ¬((st.process_line l).2 ≠ "" ∧
                (st.process_line l).1.sec = 4) := fun hx => h4 hx.2
            rw [if_neg e1, if_neg e2]
            simp
        · have e1 : ¬(fit.is_structure = true ∧
              (st.process_line l).1.sec = 4) := fun hx => hs hx.1
          rw [if_neg e1, if_neg hs, if_neg hs]
          simp

/-- C6: on a successful format-A parse, when the lookup reports the
structure category 65 for the hull, `service_slots` is exactly the ordered
list of all items dispatched in section 4; when it reports anything else,
`service_slots` stays empty. -/
theorem c6_structure_service_slots (db : String → Option Int)
    (text : String) (fit : Fit) (s n : String)
    (hp : EFTParser.parse db text = .ok fit)
    (hh : EFTParser.header text = .ok (s, n)) :
    (db s = some 65 → fit.service_slots = sec4Items text) ∧
    (db s ≠ some 65 → fit.service_slots = []) := by
  unfold EFTParser.parse at hp
  rw [hh] at hp
  dsimp only at hp
  unfold get_category_info at hp
  cases hdb : db s with
  | none => rw [hdb] at hp; cases hp
  | some c =>
    rw [hdb] at hp
    dsimp only at hp
    cases hsl : splitLines (pyStrip text) with
    | nil => rw [hsl] at hp; cases hp
    | cons l0 rest =>
      rw [hsl] at hp
      dsimp only at hp
      cases hr : EFTParser.runLines db ParserState.init
          { Fit.init s n with is_structure := c == 65 } rest with
      | error e => rw [hr] at hp; cases hp
      | ok p =>
        rw [hr] at hp
        dsimp only at hp
        cases hp
        obtain ⟨st', fit'⟩ := p
        have hs := runLines_service db rest ParserState.init
          { Fit.init s n with is_structure := c == 65 } st' fit' hr
        have hinit : ({ Fit.init s n with is_structure := c == 65 } :
            Fit).service_slots = [] := rfl
        have hini2 : ({ Fit.init s n with is_structure := c == 65 } :
            Fit).is_structure = (c == 65) := rfl
        constructor
        · intro h65
          have hc65 : c = 65 := by injection h65
          have hsvc : fit'.service_slots = collect4 ParserState.init rest := by
            rw [hs.2, hinit, hini2, hc65]
            simp
          show fit'.service_slots = sec4Items text
          rw [hsvc]
          unfold sec4Items
          rw [hsl]
        · intro hne
          have hc65 : c ≠ 65 := by intro hc; exact hne (by rw [hc])
          show fit'.service_slots = []
          rw [hs.2, hinit, hini2]
          simp [hc65]

/-- Witness for `c6_structure_service_slots` on the structure document
`docK` with table `dbK`. -/
theorem c6_witness :
    ∃ fit, EFTParser.parse dbK docK = .ok fit ∧
      fit.service_slots = sec4Items docK := by
  refine ⟨{ Fit.init "K" "f" with
    low_slots := [.module "L" none],
    mid_slots := [.module "M" none],
    high_slots := [.module "H" none],
    rigs := [.rig "R"],
    service_slots := [.module "Widget" none],
    cargo := [.module "Widget" none],
    is_structure := true }, rfl, ?_⟩
  exact (c6_structure_service_slots dbK docK _ "K" "f" rfl rfl).1 rfl

/-! ## String lemmas for the header and quantity-splitting theorems -/

theorem data_asString (l : List Char) : (List.asString l).data = l := rfl

theorem asString_data (s : String) : s.data.asString = s := rfl

theorem dropWhile_head_false (p : Char → Bool) :
    ∀ (l : List Char) (c : Char) (cs : List Char),
      l.dropWhile p = c :: cs → p c = false := by
  intro l
  induction l with
  | nil => intro c cs h; simp at h
  | cons a l ih =>
    intro c cs h
    rw [List.dropWhile_cons] at h
    by_cases hp : p a = true
    · rw [if_pos hp] at h; exact ih c cs h
    · rw [if_neg hp] at h
      injection h with h1 h2
      subst h1
      simpa using hp

theorem stripEnds_head (p : Char → Bool) (l : List Char) (c : Char)
    (cs : List Char) (h : stripEnds p l = c :: cs) : p c = false :=
  dropWhile_head_false p _ c cs h

theorem splitLinesL_head (c : Char) (cs : List Char) (h : ¬ c = '\n') :
    ∃ t rest, splitLinesL (c :: cs) = (c :: t) :: rest := by
  cases hr : splitLinesL cs with
  | nil =>
    refine ⟨[], [], ?_⟩
    simp only [splitLinesL]
    rw [if_neg h, hr]
  | cons a as =>
    refine ⟨a, as, ?_⟩
    simp only [splitLinesL]
    rw [if_neg h, hr]

theorem mem_of_mem_dropWhile (p : Char → Bool) (x : Char) :
    ∀ l : List Char, x ∈ l.dropWhile p → x ∈ l := by
  intro l
  induction l with
  | nil => simp
  | cons a l ih =>
    intro h
    rw [List.dropWhile_cons] at h
    by_cases hp : p a = true
    · rw [if_pos hp] at h
      exact List.mem_cons_of_mem a (ih h)
    · rw [if_neg hp] at h
      exact h

theorem mem_of_mem_stripEnds (p : Char → Bool) (x : Char) (l : List Char)
    (h : x ∈ stripEnds p l) : x ∈ l := by
  unfold stripEnds at h
  have h1 := mem_of_mem_dropWhile p x _ h
  rw [List.mem_reverse] at h1
  have h2 := mem_of_mem_dropWhile p x _ h1
  rw [List.mem_reverse] at h2
  exact h2

theorem isPrefixOf_one (x c : Char) (l : List Char) :
    [x].isPrefixOf (c :: l) = (x == c) := by
  simp [List.isPrefixOf]

theorem subL_single (x : Char) : ∀ l : List Char, subL [x] l = true ↔ x ∈ l := by
  intro l
  induction l with
  | nil => simp [subL, List.isEmpty]
  | cons c cs ih => simp [subL, isPrefixOf_one, ih]

theorem splitOnceL_single_none (x : Char) :
    ∀ l : List Char, x ∉ l → splitOnceL [x] l = none := by
  intro l
  induction l with
  | nil => intro h; simp [splitOnceL]
  | cons c cs ih =>
    intro h
    simp only [splitOnceL]
    rw [if_neg, ih (fun hm => h (List.mem_cons_of_mem c hm))]
    rw [isPrefixOf_one]
    simp only [beq_iff_eq]
    intro hxc
    exact h (hxc ▸ List.mem_cons_self c cs)

/-- C5 amended: for either dialect, if the input (after stripping
surrounding whitespace) does not begin with the dialect's leading marker,
or its first line contains no comma at all, the parser returns an error and
no `Fit`. -/
theorem c5_amended (text : String) (db : String → Option Int) :
    ((¬ pyStartsWith (pyStrip text) "[" = true ∨
        ∀ l, firstLine text = some l → hasSub l "," = false) →
      ∃ e, EFTParser.parse db text = .error e) ∧
    ((¬ pyStartsWith (pyStrip text) "#" = true ∨
        ∀ l, firstLine text = some l → hasSub l "," = false) →
      ∃ e, EFT2Parser.parse text = .error e) := by
  constructor
  · intro hA
    suffices hdr : ∃ e, EFTParser.header text = .error e by
      obtain ⟨e, he⟩ := hdr
      exact ⟨e, by unfold EFTParser.parse; rw [he]⟩
    unfold EFTParser.header
    cases hsl : splitLines (pyStrip text) with
    | nil => exact ⟨_, rfl⟩
    | cons l0 rest =>
      dsimp only
      cases hd : (pyStrip text).data with
      | nil =>
        exfalso
        unfold splitLines at hsl
        rw [hd] at hsl
        simp [splitLinesL] at hsl
      | cons c cs =>
        have hd' : stripEnds pySpace text.data = c :: cs := hd
        have hcnl : ¬ c = '\n' := by
          have hsp := stripEnds_head pySpace text.data c cs hd'
          intro hc
          rw [hc] at hsp
          exact absurd hsp (by decide)
        obtain ⟨t, rest', hsplit⟩ := splitLinesL_head c cs hcnl
        have hml : ((c :: t) :: rest').map List.asString = l0 :: rest := by
          unfold splitLines at hsl
          rw [hd, hsplit] at hsl
          exact hsl
        rw [List.map_cons] at hml
        injection hml with hml1 hml2
        cases hA with
        | inl hmark =>
          have hm : pyStartsWith l0 "[" = false := by
            rw [← hml1]
            have e1 : pyStartsWith ((c :: t).asString) "[" = ('[' == c) := by
              unfold pyStartsWith
              rw [data_asString]
              exact isPrefixOf_one '[' c t
            have e2 : pyStartsWith (pyStrip text) "[" = ('[' == c) := by
              unfold pyStartsWith
              rw [hd]
              exact isPrefixOf_one '[' c cs
            rw [e1, ← e2]
            cases hpb : pyStartsWith (pyStrip text) "[" with
            | false => rfl
            | true => exact absurd hpb hmark
          exact ⟨_, by rw [hm]; rfl⟩
        | inr hcomma =>
          have hfl : firstLine text = some l0 := by
            unfold firstLine
            rw [hsl]
            rfl
          have hnc : subL [','] l0.data = false := hcomma l0 hfl
          have hmem : ',' ∉ l0.data := by
            intro hm
            have h1 := (subL_single ',' l0.data).mpr hm
            rw [hnc] at h1
            cases h1
          by_cases hm : pyStartsWith l0 "[" = true
          · have hnone : splitOnceL [','] (pyStripChars "[]" l0).data = none := by
              apply splitOnceL_single_none
              intro hmem2
              exact hmem (mem_of_mem_stripEnds _ ',' l0.data hmem2)
            have hnone' : splitFirstStr (pyStripChars "[]" l0) "," = none := by
              unfold splitFirstStr
              rw [show ("," : String).data = [','] from rfl, hnone]
              rfl
            exact ⟨_, by rw [if_pos hm, hnone']⟩
          · exact ⟨_, by rw [if_neg hm]⟩
  · intro hB
    unfold EFT2Parser.parse
    cases hsl : splitLines (pyStrip text) with
    | nil => exact ⟨_, rfl⟩
    | cons l0 rest =>
      dsimp only
      cases hd : (pyStrip text).data with
      | nil =>
        exfalso
        unfold splitLines at hsl
        rw [hd] at hsl
        simp [splitLinesL] at hsl
      | cons c cs =>
        have hd' : stripEnds pySpace text.data = c :: cs := hd
        have hcnl : ¬ c = '\n' := by
          have hsp := stripEnds_head pySpace text.data c cs hd'
          intro hc
          rw [hc] at hsp
          exact absurd hsp (by decide)
        obtain ⟨t, rest', hsplit⟩ := splitLinesL_head c cs hcnl
        have hml : ((c :: t) :: rest').map List.asString = l0 :: rest := by
          unfold splitLines at hsl
          rw [hd, hsplit] at hsl
          exact hsl
        rw [List.map_cons] at hml
        injection hml with hml1 hml2
        cases hB with
        | inl hmark =>
          have hm : pyStartsWith l0 "#" = false := by
            rw [← hml1]
            have e1 : pyStartsWith ((c :: t).asString) "#" = ('#' == c) := by
              unfold pyStartsWith
              rw [data_asString]
              exact isPrefixOf_one '#' c t
            have e2 : pyStartsWith (pyStrip text) "#" = ('#' == c) := by
              unfold pyStartsWith
              rw [hd]
              exact isPrefixOf_one '#' c cs
            rw [e1, ← e2]
            cases hpb : pyStartsWith (pyStrip text) "#" with
            | false => rfl
            | true => exact absurd hpb hmark
          exact ⟨_, by rw [hm]; rfl⟩
        | inr hcomma =>
          have hfl : firstLine text = some l0 := by
            unfold firstLine
            rw [hsl]
            rfl
          have hnc : subL [','] l0.data = false := hcomma l0 hfl
          have hmem : ',' ∉ l0.data := by
            intro hm
            have h1 := (subL_single ',' l0.data).mpr hm
            rw [hnc] at h1
            cases h1
          by_cases hm : pyStartsWith l0 "#" = true
          · have hnone : splitOnceL [','] (pyStripChars "# " l0).data = none := by
              apply splitOnceL_single_none
              intro hmem2
              exact hmem (mem_of_mem_stripEnds _ ',' l0.data hmem2)
            have hnone' : splitFirstStr (pyStripChars "# " l0) "," = none := by
              unfold splitFirstStr
              rw [show ("," : String).data = [','] from rfl, hnone]
              rfl
            exact ⟨_, by rw [if_pos hm, hnone']⟩
          · exact ⟨_, by rw [if_neg hm]⟩

/-- Witness for `c5_amended` on the spec's invalid input
`"Invalid EFT data"`. -/
theorem c5_witness :
    (∃ e, EFTParser.parse dbA "Invalid EFT data" = .error e) ∧
    (∃ e, EFT2Parser.parse "Invalid EFT data" = .error e) :=
  ⟨(c5_amended "Invalid EFT data" dbA).1 (Or.inl (by decide)),
   (c5_amended "Invalid EFT data" dbA).2 (Or.inl (by decide))⟩

/-! ## Lemmas about splitting at the last delimiter occurrence -/

theorem data_append (a b : String) : (a ++ b).data = a.data ++ b.data := by
  cases a
  cases b
  rfl

theorem isPrefixOf_append_self :
    ∀ (p b : List Char), p.isPrefixOf (p ++ b) = true := by
  intro p
  induction p with
  | nil => intro b; simp [List.isPrefixOf]
  | cons c cs ih => intro b; simp [List.isPrefixOf, ih]

theorem subL_append_mid (pat b : List Char) :
    ∀ a, subL pat (a ++ (pat ++ b)) = true := by
  intro a
  induction a with
  | nil =>
    show subL pat (pat ++ b) = true
    cases hpb : pat ++ b with
    | nil =>
      have hpe : pat = [] := (List.append_eq_nil.mp hpb).1
      rw [hpe]
      rfl
    | cons c cs =>
      simp only [subL]
      rw [← hpb, isPrefixOf_append_self]
      simp
  | cons x a' ih =>
    rw [List.cons_append]
    simp only [subL]
    rw [ih]
    simp

theorem splitOnceL_boundary :
    ∀ (a pat b : List Char), pat ≠ [] →
      (∀ i, i < a.length → pat.isPrefixOf (a.drop i ++ (pat ++ b)) = false) →
      splitOnceL pat (a ++ (pat ++ b)) = some (a, b) := by
  intro a
  induction a with
  | nil =>
    intro pat b hp _
    cases pat with
    | nil => exact absurd rfl hp
    | cons p ps =>
      show splitOnceL (p :: ps) ((p :: ps) ++ b) = some ([], b)
      rw [List.cons_append]
      simp only [splitOnceL]
      rw [if_pos]
      · rw [← List.cons_append, List.drop_left]
      · rw [← List.cons_append, isPrefixOf_append_self]
  | cons x a' ih =>
    intro pat b hp hno
    rw [List.cons_append]
    simp only [splitOnceL]
    have h0 := hno 0 (by simp)
    rw [List.drop_zero, List.cons_append] at h0
    have hnot : ¬ (pat.isPrefixOf (x :: (a' ++ (pat ++ b))) = true) := by
      rw [h0]
      simp
    have hrec := ih pat b hp (fun i hi => by
      have hs := hno (i + 1) (by simpa using Nat.succ_lt_succ hi)
      rwa [List.drop_succ_cons] at hs)
    rw [if_neg hnot, hrec]

theorem rsplitOnceL_boundary (pat a q : List Char) (hp : pat ≠ [])
    (hq : ∀ i, i < q.length →
      pat.reverse.isPrefixOf
        (q.reverse.drop i ++ (pat.reverse ++ a.reverse)) = false) :
    rsplitOnceL pat (a ++ (pat ++ q)) = some (a, q) := by
  unfold rsplitOnceL
  have hrev : (a ++ (pat ++ q)).reverse =
      q.reverse ++ (pat.reverse ++ a.reverse) := by
    simp [List.reverse_append]
  rw [hrev, splitOnceL_boundary q.reverse pat.reverse a.reverse
    (by simpa using hp) (fun i hi => hq i (by simpa using hi))]
  simp

theorem rsplit_digits (pat : List Char) (x0 : Char) (xs : List Char)
    (hrev : pat.reverse = x0 :: xs) (hx0 : ∀ c, c.isDigit = true → ¬ x0 = c)
    (a q : List Char) (hq : q.all Char.isDigit = true) :
    rsplitOnceL pat (a ++ (pat ++ q)) = some (a, q) := by
  apply rsplitOnceL_boundary
  · intro h0
    rw [h0] at hrev
    cases hrev
  · intro i hi
    have hlt : i < q.reverse.length := by simpa using hi
    cases hdrop : q.reverse.drop i with
    | nil =>
      exfalso
      have hlen := congrArg List.length hdrop
      simp at hlen
      omega
    | cons d rest =>
      have hdm : d ∈ q.reverse := by
        have hmem : d ∈ q.reverse.drop i := by
          rw [hdrop]
          exact List.mem_cons_self d rest
        exact List.mem_of_mem_drop hmem
      rw [List.mem_reverse] at hdm
      have hdig : d.isDigit = true := List.all_eq_true.mp hq d hdm
      have hbeq : (x0 == d) = false := beq_eq_false_iff_ne.mpr (hx0 d hdig)
      rw [List.cons_append, hrev]
      simp [List.isPrefixOf, hbeq]

theorem dropWhile_all_false (p : Char → Bool) :
    ∀ l : List Char, (∀ x ∈ l, p x = false) → l.dropWhile p = l := by
  intro l
  induction l with
  | nil => intro _; rfl
  | cons a l ih =>
    intro h
    rw [List.dropWhile_cons, if_neg (by simp [h a (List.mem_cons_self a l)])]

theorem stripEnds_all_false (p : Char → Bool) (l : List Char)
    (h : ∀ x ∈ l, p x = false) : stripEnds p l = l := by
  unfold stripEnds
  rw [dropWhile_all_false p l.reverse (fun x hx => h x (List.mem_reverse.mp hx)),
    List.reverse_reverse, dropWhile_all_false p l h]

theorem digit_not_pySpace (c : Char) (h : c.isDigit = true) :
    pySpace c = false := by
  simp only [pySpace, decide_eq_false_iff_not]
  rintro (rfl | rfl | rfl | rfl | rfl | rfl) <;> exact absurd h (by decide)

theorem strip_digits (q : String) (h : q.data.all Char.isDigit = true) :
    pyStrip q = q := by
  unfold pyStrip
  rw [stripEnds_all_false pySpace q.data
    (fun x hx => digit_not_pySpace x (List.all_eq_true.mp h x hx))]
  exact asString_data q

theorem pyInt_digits (q : String) (hne : q.data ≠ [])
    (h : q.data.all Char.isDigit = true) :
    pyInt q = .ok ((natOfDigits q.data : Nat) : Int) := by
  unfold pyInt
  cases hq : q.data with
  | nil => exact absurd hq hne
  | cons c cs =>
    rw [hq] at h
    dsimp only
    have hc : c.isDigit = true := List.all_eq_true.mp h c (List.mem_cons_self c cs)
    have hcm : ¬ c = '-' := by rintro rfl; exact absurd hc (by decide)
    have hcp : ¬ c = '+' := by rintro rfl; exact absurd hc (by decide)
    rw [if_neg hcm, if_neg hcp]
    unfold pyIntDigits
    rw [if_pos ⟨by simp, h⟩]
    rfl

/-- C8 amended: splitting uses the last occurrence of the quantity
delimiter, so a line with an explicit numeric count is parsed with the full
name intact (never truncated) even when the name itself contains the
delimiter; a line *without* an explicit count whose name contains the
delimiter is instead mis-split (see the counterexample). -/
theorem c8_amended (name q : String) (hne : q.data ≠ [])
    (hd : q.data.all Char.isDigit = true) :
    EFTParser.parse_drone (name ++ " x" ++ q) =
      .ok (.drone (pyStrip name) ((natOfDigits q.data : Nat) : Int)) ∧
    EFTParser.parse_cargo (name ++ " x" ++ q) =
      .ok (.cargo (pyStrip name) ((natOfDigits q.data : Nat) : Int)) ∧
    EFT2Parser.parse_drone (name ++ " ," ++ q) =
      .ok (.drone (pyStrip name) ((natOfDigits q.data : Nat) : Int)) ∧
    EFT2Parser.parse_cargo (name ++ " ," ++ q) =
      .ok (.cargo (pyStrip name) ((natOfDigits q.data : Nat) : Int)) := by
  have hq1 : pyStrip q = q := strip_digits q hd
  have hint : pyInt q = .ok ((natOfDigits q.data : Nat) : Int) :=
    pyInt_digits q hne hd
  have hx : hasSub (name ++ " x" ++ q) " x" = true := by
    unfold hasSub
    rw [data_append, data_append, List.append_assoc]
    exact subL_append_mid (" x").data q.data name.data
  have hsplitx : rsplitStr (name ++ " x" ++ q) " x" = some (name, q) := by
    unfold rsplitStr
    rw [data_append, data_append, List.append_assoc]
    rw [rsplit_digits (" x").data 'x' [' '] rfl
      (fun c hc hn => absurd hc (by rw [← hn]; decide)) name.data q.data hd]
    simp [asString_data]
  have hc2 : hasSub (name ++ " ," ++ q) " ," = true := by
    unfold hasSub
    rw [data_append, data_append, List.append_assoc]
    exact subL_append_mid (" ,").data q.data name.data
  have hsplitc : rsplitStr (name ++ " ," ++ q) " ," = some (name, q) := by
    unfold rsplitStr
    rw [data_append, data_append, List.append_assoc]
    rw [rsplit_digits (" ,").data ',' [' '] rfl
      (fun c hc hn => absurd hc (by rw [← hn]; decide)) name.data q.data hd]
    simp [asString_data]
  refine ⟨?_, ?_, ?_, ?_⟩
  · unfold EFTParser.parse_drone
    rw [if_pos hx, hsplitx]
    dsimp only
    rw [hq1, hint]
  · unfold EFTParser.parse_cargo
    rw [if_pos hx, hsplitx]
    dsimp only
    rw [hq1, hint]
  · unfold EFT2Parser.parse_drone
    rw [if_pos hc2, hsplitc]
    dsimp only
    rw [hq1, hint]
  · unfold EFT2Parser.parse_cargo
    rw [if_pos hc2, hsplitc]
    dsimp only
    rw [hq1, hint]

/-- Witness for `c8_amended`: a name containing `" x"` with an explicit
count parses intact. -/
theorem c8_witness :
    ("Festival x-mas Launcher" ++ " x" ++ "5" : String) =
      "Festival x-mas Launcher x5" ∧
    ((natOfDigits ("5" : String).data : Nat) : Int) = 5 ∧
    EFTParser.parse_drone ("Festival x-mas Launcher" ++ " x" ++ "5") =
      .ok (.drone (pyStrip "Festival x-mas Launcher")
        ((natOfDigits ("5" : String).data : Nat) : Int)) :=
  ⟨rfl, rfl,
    (c8_amended "Festival x-mas Launcher" "5" (by decide) (by decide)).1⟩

end EFT
